import Mathlib

/-!
# Verification of the Data Quality Sentry check/fix engine

Shallow embedding of the repository source (`checks/run_checks.py`,
`checks/fixers.py`, `run_all.py`) and proofs about the claims of its
specification.

Modelling conventions:
* A dataframe cell is a `Value`: a string, a rational number (standing for a
  Python float/int; floating point is abstracted by `ℚ`), a parsed date
  (a timestamp at day resolution, `ℤ`), or the missing sentinel (NaN/NaT).
* Numeric coercion (`pd.to_numeric(errors="coerce")`) and date coercion
  (`pd.to_datetime(errors="coerce")`) are third-party boundary dependencies of
  the program (spec section 6); they are modelled as explicit function
  parameters `toNum : Value → Option ℚ` and `toDate : Value → Option ℤ`
  (`none` models the NaN/NaT result of a failed coercion).
* A `Dataset` is column oriented: an ordered list of (column name, cell list)
  pairs, matching a pandas DataFrame; `nRows` (the pandas `len(df)`) is the
  length of the first column.
* Masks produced by the helper functions of `run_checks.py` can be either a
  pandas boolean Series or a plain Python `bool` scalar (the latter arises in
  `_mask_range` when a bound is absent); `PyMask` models this dynamic typing,
  and `.fillna` on a scalar is the `AttributeError` crash, modelled as `none`.
-/

namespace DQS

/-- A single dataframe cell. -/
inductive Value where
  | str : String → Value
  | num : ℚ → Value
  | date : ℤ → Value
  | missing : Value
deriving DecidableEq, Repr

/-- pandas `isna`: only the missing sentinel (NaN/NaT) is missing. -/
def Value.isna : Value → Bool
  | Value.missing => true
  | _ => false

/-- Python `str()` of a cell, as used by `trim_strings` via `astype(str)`.
The missing sentinel is the float NaN, whose string conversion is the literal
string `nan`.  The rendering of a rational under `str()` is modelled by the
standard rational rendering; the claims under study never depend on it. -/
def pythonStr : Value → String
  | Value.str s => s
  | Value.num q => toString q
  | Value.date t => toString t
  | Value.missing => "nan"

/-- A column-oriented dataframe: ordered (name, cells) pairs. -/
structure Dataset where
  cols : List (String × List Value)
deriving DecidableEq, Repr

/-- `df.columns.tolist()`. -/
def Dataset.names (ds : Dataset) : List String := ds.cols.map (fun p => p.1)

/-- `len(df)`: the row count, the length of the first column. -/
def Dataset.nRows (ds : Dataset) : ℕ :=
  match ds.cols with
  | [] => 0
  | c :: _ => c.2.length

/-- `df[name]`: the cells of the first column carrying `name`
(empty when the column is absent). -/
def Dataset.lookupCol (ds : Dataset) (name : String) : List Value :=
  match ds.cols.find? (fun p => p.1 = name) with
  | some p => p.2
  | none => []

/-- `name in df.columns`. -/
def Dataset.hasCol (ds : Dataset) (name : String) : Bool :=
  ds.cols.any (fun p => p.1 = name)

/-- `df[name] = vs`: replace the cells of every column carrying `name`. -/
def Dataset.setCol (ds : Dataset) (name : String) (vs : List Value) : Dataset :=
  ⟨ds.cols.map (fun p => if p.1 = name then (p.1, vs) else p)⟩

/-- A pandas column has object (textual) dtype when it holds at least one
string cell. -/
def isObjectDtype (c : List Value) : Bool :=
  c.any (fun v => match v with | Value.str _ => true | _ => false)

/-! ## Dynamic mask values (`_mask_range` of run_checks.py, lines 33-36)

The expression
`((s < min_v) if min_v is not None else False) | ((s > max_v) if max_v is not None else False)`
produces a pandas Series when at least one bound is present, and the plain
Python scalar `False` when both are absent; the subsequent `.fillna(False)`
then raises `AttributeError` on the scalar. -/

/-- Either a pandas boolean Series or a plain Python bool scalar. -/
inductive PyMask where
  | scalar : Bool → PyMask
  | series : List Bool → PyMask
deriving DecidableEq, Repr

/-- Python `|` between Series/bool operands, as pandas overloads it. -/
def PyMask.or : PyMask → PyMask → PyMask
  | PyMask.scalar a, PyMask.scalar b => PyMask.scalar (a || b)
  | PyMask.scalar a, PyMask.series m => PyMask.series (m.map (fun b => a || b))
  | PyMask.series m, PyMask.scalar a => PyMask.series (m.map (fun b => b || a))
  | PyMask.series m, PyMask.series n => PyMask.series (m.zipWith (fun a b => a || b) n)

/-- `.fillna(False)`: defined on a Series, an `AttributeError` crash (`none`)
on a bool scalar. -/
def PyMask.fillnaFalse : PyMask → Option (List Bool)
  | PyMask.scalar _ => none
  | PyMask.series m => some m

/-- `_mask_range` (run_checks.py lines 33-36): coerce the column to numeric,
then build the out-of-bounds mask; comparison of a NaN with a number is
false in pandas.  Returns `none` when the dynamic evaluation crashes. -/
def maskRange (toNum : Value → Option ℚ) (minv maxv : Option ℚ)
    (col : List Value) : Option (List Bool) :=
  let s := col.map toNum
  let low : PyMask :=
    match minv with
    | some m => PyMask.series (s.map (fun o => match o with
        | some q => decide (q < m)
        | none => false))
    | none => PyMask.scalar false
  let high : PyMask :=
    match maxv with
    | some m => PyMask.series (s.map (fun o => match o with
        | some q => decide (m < q)
        | none => false))
    | none => PyMask.scalar false
  (low.or high).fillnaFalse

/-- Evaluation of one `range` check (run_checks.py lines 68-70): count the
mask, fail iff the count is positive.  `none` when the mask computation
crashed. -/
def evalRange (toNum : Value → Option ℚ) (minv maxv : Option ℚ)
    (col : List Value) : Option (ℕ × String) :=
  (maskRange toNum minv maxv col).map (fun m =>
    let c := m.countP id
    (c, if 0 < c then "fail" else "pass"))

/-- `_mask_enum` (run_checks.py lines 37-38): a cell is flagged when it is not
a member of `allowed`; `isin` never yields NaN, so the `.fillna(True)` is a
no-op (pandas treats a NaN cell as a member only when NaN is in the list). -/
def maskEnum (allowed : List Value) (col : List Value) : List Bool :=
  col.map (fun v => !(decide (v ∈ allowed)))

/-- The effective duplicate subset: `subset or df.columns.tolist()` — Python
truthiness makes both an absent and an empty subset fall back to all
columns. -/
def effSubset (subset : Option (List String)) (ds : Dataset) : List String :=
  match subset with
  | none => ds.names
  | some [] => ds.names
  | some S => S

/-- Projection of row `i` onto the columns named in `S`, taken in dataframe
column order (the order is immaterial for the equality comparisons below). -/
def Dataset.projRow (ds : Dataset) (S : List String) (i : ℕ) : List Value :=
  ds.cols.filterMap (fun p =>
    if p.1 ∈ S then some (p.2.getD i Value.missing) else none)

/-- `df.duplicated(subset=S, keep="first")` (run_checks.py lines 39-40): row
`i` is flagged iff an earlier row `j` carries identical values across `S`. -/
def dupFlags (ds : Dataset) (S : List String) : List Bool :=
  (List.range ds.nRows).map (fun i =>
    decide (∃ j ∈ List.range i, ds.projRow S j = ds.projRow S i))

/-- `_mask_freshness` (run_checks.py lines 41-46): a cell is flagged when it
was present but failed to parse, or — only when `max_age_days` is set — when
its parsed age in whole days exceeds the bound (a NaT age compares false). -/
def maskFreshness (toDate : Value → Option ℤ) (now : ℤ) (maxAge : Option ℤ)
    (col : List Value) : List Bool :=
  match maxAge with
  | none => col.map (fun v => decide (toDate v = none) && !v.isna)
  | some m => col.map (fun v =>
      (decide (toDate v = none) && !v.isna) ||
      (match toDate v with | some t => decide (m < now - t) | none => false))

/-- Evaluation of one `null_rate` check (run_checks.py lines 74-81). -/
def evalNullRate (maxNulls : Option ℕ) (maxFrac : Option ℚ) (ds : Dataset)
    (cname : String) : ℕ × String :=
  let count := (ds.lookupCol cname).countP Value.isna
  let okByCount := match maxNulls with
    | none => true
    | some m => decide (count ≤ m)
  let frac : ℚ := (count : ℚ) / ((max 1 ds.nRows : ℕ) : ℚ)
  let okByFrac := match maxFrac with
    | none => true
    | some f => decide (frac ≤ f)
  (count, if okByCount && okByFrac then "pass" else "fail")

/-- Evaluation of one `freshness` check (run_checks.py lines 82-86): the count
is the mask total; the status fails only when `max_age_days` was provided and
the count is positive. -/
def evalFreshness (toDate : Value → Option ℤ) (now : ℤ) (maxAge : Option ℤ)
    (ds : Dataset) (cname : String) : ℕ × String :=
  let count := (maskFreshness toDate now maxAge (ds.lookupCol cname)).countP id
  (count, if maxAge.isSome && decide (0 < count) then "fail" else "pass")

/-- Evaluation of one table-level `duplicate` check (run_checks.py lines
53-60). -/
def evalDuplicate (subset : Option (List String)) (ds : Dataset) : ℕ × String :=
  let count := (dupFlags ds (effSubset subset ds)).countP id
  (count, if 0 < count then "fail" else "pass")

/-- A concrete numeric coercion used to instantiate witnesses: numbers coerce
to themselves, everything else fails to coerce. -/
def basicToNum : Value → Option ℚ
  | Value.num q => some q
  | _ => none

/-- A concrete date coercion used to instantiate witnesses: date cells parse
to themselves, everything else fails to parse. -/
def basicToDate : Value → Option ℤ
  | Value.date t => some t
  | _ => none

/-- The cell of column `s` at row `i` (missing when out of range or the
column is absent). -/
def Dataset.cellAt (ds : Dataset) (s : String) (i : ℕ) : Value :=
  (ds.lookupCol s).getD i Value.missing

/-! ## The fix pipeline (fixers.py) -/

/-- One entry of the fix action log (fixers.py lines 11-19). -/
structure FixAction where
  rule : String
  table : String
  column : Option String
  action : String
  affected : ℕ
  notes : String
deriving DecidableEq, Repr

/-- The accumulated fix report (fixers.py lines 5-26). -/
structure FixReport where
  total_rows_before : Option ℕ
  total_rows_after : Option ℕ
  actions : List FixAction
deriving DecidableEq, Repr

/-- `FixReport.add`: append one action record. -/
def FixReport.add (r : FixReport) (rule table : String) (column : Option String)
    (action : String) (affected : ℕ) (notes : String) : FixReport :=
  { r with actions := r.actions ++ [⟨rule, table, column, action, affected, notes⟩] }

/-- Drop the leading whitespace characters of a character list. -/
def dropLeadWS : List Char → List Char
  | [] => []
  | c :: cs => if c.isWhitespace then dropLeadWS cs else c :: cs

/-- Python `str.strip()`: drop leading and trailing whitespace.  Implemented
over the character list so that it evaluates inside the kernel. -/
def pyStrip (s : String) : String :=
  ⟨(dropLeadWS (dropLeadWS s.data).reverse).reverse⟩

/-- `astype(str)` then `str.strip()` of one cell. -/
def trimCell (v : Value) : Value := Value.str (pyStrip (pythonStr v))

/-- Whether stripping changes the string conversion of a cell. -/
def trimChanged (v : Value) : Bool :=
  decide (pyStrip (pythonStr v) ≠ pythonStr v)

/-- `trim_strings` (fixers.py lines 28-39): for every object-dtype column,
replace the column by its stripped string conversion; the affected total
counts the cells whose string form changed; one aggregated action is recorded
when the total is positive. -/
def trim_strings (df : Dataset) (report : FixReport) (tname : String) :
    Dataset × FixReport :=
  let affected := (df.cols.map (fun p =>
      if isObjectDtype p.2 then p.2.countP trimChanged else 0)).sum
  let df2 : Dataset := ⟨df.cols.map (fun p =>
      if isObjectDtype p.2 then (p.1, p.2.map trimCell) else p)⟩
  (df2,
   if affected ≠ 0 then
     report.add (tname ++ "_trim") tname none "trim_strings" affected ""
   else report)

/-- Keep the cells of a column whose row flag is false. -/
def keepUnflagged (flags : List Bool) (c : List Value) : List Value :=
  (flags.zip c).filterMap (fun fv => if fv.1 then none else some fv.2)

/-- `drop_exact_duplicates` (fixers.py lines 41-50): remove every row that
repeats an earlier row on the effective subset, keeping the first occurrence
(the quarantine file write is a side effect outside the data model). -/
def drop_exact_duplicates (df : Dataset) (subset : Option (List String))
    (report : FixReport) (tname : String) : Dataset × FixReport :=
  let S := effSubset subset df
  let flags := dupFlags df S
  let affected := flags.countP id
  if affected ≠ 0 then
    (⟨df.cols.map (fun p => (p.1, keepUnflagged flags p.2))⟩,
     report.add (tname ++ "_duplicate") tname none "drop_duplicates" affected
       ("subset=" ++ toString S))
  else (df, report)

/-- `Series.clip(lower, upper)` on one number: the lower bound is applied
first, then the upper bound. -/
def clipQ (minv maxv : Option ℚ) (q : ℚ) : ℚ :=
  let q1 := match minv with | some m => max q m | none => q
  match maxv with | some m => min q1 m | none => q1

/-- Pandas `!=` on two float cells: a NaN on either side compares unequal
(in particular NaN != NaN is true). -/
def floatNe : Option ℚ → Option ℚ → Bool
  | some a, some b => decide (a ≠ b)
  | _, _ => true

/-- Writing a coerced float series back into the dataframe: numbers become
numeric cells, NaN becomes the missing sentinel. -/
def renderNum : Option ℚ → Value
  | some q => Value.num q
  | none => Value.missing

/-- `clip_range` (fixers.py lines 52-66): coerce the column to numeric, clamp
to the present bounds, count the changed coercible cells, and - only when that
count is positive - write the whole coerced and clipped series back into the
column. -/
def clip_range (toNum : Value → Option ℚ) (df : Dataset) (column : String)
    (minv maxv : Option ℚ) (report : FixReport) (tname : String) :
    Dataset × FixReport :=
  if df.hasCol column then
    let series := (df.lookupCol column).map toNum
    let clipped := series.map (fun o => o.map (clipQ minv maxv))
    let changed := (series.zip clipped).map (fun bc =>
        floatNe bc.1 bc.2 && bc.1.isSome)
    let affected := changed.countP id
    if affected ≠ 0 then
      (df.setCol column (clipped.map renderNum),
       report.add (tname ++ "_" ++ column ++ "_range") tname (some column)
         "clip" affected ("min=" ++ toString minv ++ ", max=" ++ toString maxv))
    else (df, report)
  else (df, report)

/-- `enforce_enum` (fixers.py lines 68-77): count (and quarantine) the cells
outside the allowed list; the column is never modified. -/
def enforce_enum (df : Dataset) (column : String) (allowed : List Value)
    (report : FixReport) (tname : String) : Dataset × FixReport :=
  if df.hasCol column then
    let affected := (df.lookupCol column).countP (fun v => !(decide (v ∈ allowed)))
    if affected ≠ 0 then
      (df, report.add (tname ++ "_" ++ column ++ "_enum") tname (some column)
        "quarantine_invalid_enum" affected ("allowed=" ++ toString allowed.length))
    else (df, report)
  else (df, report)

/-- `fill_nulls` (fixers.py lines 79-87): replace the missing cells of the
column by the fill value when at least one cell is missing. -/
def fill_nulls (df : Dataset) (column : String) (fillValue : Value)
    (report : FixReport) (tname : String) : Dataset × FixReport :=
  if df.hasCol column then
    let affected := (df.lookupCol column).countP Value.isna
    if affected ≠ 0 then
      (df.setCol column ((df.lookupCol column).map
          (fun v => if v.isna then fillValue else v)),
       report.add (tname ++ "_" ++ column ++ "_null_fill") tname (some column)
         "fillna" affected "")
    else (df, report)
  else (df, report)

/-- `parse_dates` (fixers.py lines 89-102): quarantine-count the present but
unparsable cells, then overwrite in place exactly the cells that parsed. -/
def parse_dates (toDate : Value → Option ℤ) (df : Dataset) (column : String)
    (report : FixReport) (tname : String) : Dataset × FixReport :=
  if df.hasCol column then
    let col := df.lookupCol column
    let affectedBad := col.countP (fun v => (toDate v).isNone && !v.isna)
    let report1 :=
      if affectedBad ≠ 0 then
        report.add (tname ++ "_" ++ column ++ "_date_parse") tname (some column)
          "quarantine_unparsed_dates" affectedBad ""
      else report
    let okCount := col.countP (fun v => (toDate v).isSome)
    let df1 :=
      if okCount ≠ 0 then
        df.setCol column (col.map (fun v => match toDate v with
          | some t => Value.date t
          | none => v))
      else df
    (df1, report1)
  else (df, report)

/-! ## Rule model and the fix pass of run_checks.py (lines 119-147) -/

/-- One column-level check of the rule document. -/
inductive ColCheck where
  | range (minv maxv : Option ℚ)
  | enum (allowed : Option (List Value))
  | null_rate (maxNulls : Option ℕ) (maxFrac : Option ℚ) (fill : Option Value)
  | freshness (maxAge : Option ℤ) (fmt : Option String)
  | other (tag : String)
deriving Repr

/-- One table-level check of the rule document. -/
inductive TableCheck where
  | duplicate (subset : Option (List String))
  | otherT (tag : String)
deriving Repr

/-- A column rule: a named column and its checks. -/
structure ColumnRule where
  name : String
  checks : List ColCheck

/-- A table rule: name, table-level checks, column rules. -/
structure TableRule where
  name : String
  checks : List TableCheck
  columns : List ColumnRule

/-- Dispatch of one column check inside the fix pass (run_checks.py lines
133-145): range clips, enum quarantines only when `allowed` is a list,
null_rate fills only when a fill value is present, freshness parses dates. -/
def applyColCheck (toNum : Value → Option ℚ) (toDate : Value → Option ℤ)
    (table cname : String) (chk : ColCheck) (df : Dataset)
    (report : FixReport) : Dataset × FixReport :=
  match chk with
  | ColCheck.range minv maxv => clip_range toNum df cname minv maxv report table
  | ColCheck.enum (some allowed) => enforce_enum df cname allowed report table
  | ColCheck.enum none => (df, report)
  | ColCheck.null_rate _ _ (some fv) => fill_nulls df cname fv report table
  | ColCheck.null_rate _ _ none => (df, report)
  | ColCheck.freshness _ _ => parse_dates toDate df cname report table
  | ColCheck.other _ => (df, report)

/-- The fix steps of one table rule (run_checks.py lines 124-145): trim all
columns, drop duplicates per duplicate check, then dispatch the column
checks in document order. -/
def applyTableRule (toNum : Value → Option ℚ) (toDate : Value → Option ℤ)
    (t : TableRule) (df : Dataset) (report : FixReport) :
    Dataset × FixReport :=
  let acc1 := trim_strings df report t.name
  let acc2 := t.checks.foldl (fun acc chk =>
      match chk with
      | TableCheck.duplicate subset =>
          drop_exact_duplicates acc.1 subset acc.2 t.name
      | TableCheck.otherT _ => acc) acc1
  t.columns.foldl (fun acc cr =>
      cr.checks.foldl (fun acc2 chk =>
          applyColCheck toNum toDate t.name cr.name chk acc2.1 acc2.2) acc) acc2

/-- The full fix pass (run_checks.py lines 119-147): record the row count
before, fold the table rules, record the row count after. -/
def runFixPipeline (toNum : Value → Option ℚ) (toDate : Value → Option ℤ)
    (tables : List TableRule) (df : Dataset) : Dataset × FixReport :=
  let report0 : FixReport := ⟨some df.nRows, none, []⟩
  let acc := tables.foldl (fun acc t => applyTableRule toNum toDate t acc.1 acc.2)
    (df, report0)
  (acc.1, { acc.2 with total_rows_after := some acc.1.nRows })

/-! ## Guardrails (run_checks.py lines 149-164) -/

/-- Outcome of the guardrail block; the flag records whether fix_report.json
has been written to disk at the moment the block ends or aborts. -/
inductive GuardOutcome where
  | abortRowImpact : GuardOutcome
  | abortCellChanges : Bool → GuardOutcome
  | finished : Bool → GuardOutcome
deriving DecidableEq, Repr

/-- `cell_changes` (run_checks.py line 157): the affected sum over all
actions except the duplicate drops. -/
def cellChangesOf (actions : List FixAction) : ℕ :=
  ((actions.filter (fun a => a.action ≠ "drop_duplicates")).map
    (fun a => a.affected)).sum

/-- The guardrail block (run_checks.py lines 149-164), evaluated only when
`total_rows_before > 0`: abort on row impact, else abort on cell changes,
else write fix_report.json.  The write (line 163) comes textually and
dynamically after the cell-change abort (line 162), so a cell-change abort
happens with the report still unwritten. -/
def guardrailStage (maxImpact maxCell : ℚ) (before after : ℕ)
    (actions : List FixAction) (ncols : ℕ) : GuardOutcome :=
  if 0 < before then
    let impactPct : ℚ := 100 * (((before : ℚ) - (after : ℚ)) / (before : ℚ))
    if maxImpact < impactPct then GuardOutcome.abortRowImpact
    else
      let cellChanges := cellChangesOf actions
      let totalCells := before * ncols
      if totalCells ≠ 0 ∧ maxCell < 100 * ((cellChanges : ℚ) / (totalCells : ℚ))
      then GuardOutcome.abortCellChanges false
      else GuardOutcome.finished true
  else GuardOutcome.finished false

/-! ## Stable descending sort

Python `sorted(key=..., reverse=True)` is a stable sort: elements with equal
keys keep their original relative order.  Insertion placing a new element
before the first existing element with a key not larger is exactly that
semantics; it also models the descending `sort_values` of the viz builder. -/

/-- Insert `x` before the first element whose key is not larger. -/
def insertDesc {α β : Type} [LinearOrder β] (key : α → β) (x : α) :
    List α → List α
  | [] => [x]
  | y :: ys => if key y ≤ key x then x :: y :: ys else y :: insertDesc key x ys

/-- Stable descending insertion sort by a key. -/
def sortDesc {α β : Type} [LinearOrder β] (key : α → β) : List α → List α
  | [] => []
  | x :: xs => insertDesc key x (sortDesc key xs)

/-! ## Viz column selection (run_checks.py lines 169-183) -/

/-- One Check Result record, as the evaluation loop emits it. -/
structure CheckRes where
  name : String
  table : String
  column : Option String
  ctype : String
  status : String
  count : ℕ
deriving DecidableEq, Repr

/-- Python truthiness of `c.get("column")`: absent and empty strings are
falsy. -/
def truthyCol (o : Option String) : Bool :=
  match o with
  | some s => decide (s ≠ "")
  | none => false

/-- `head.isna().mean()` over the first 1000 rows of one column.  A pandas
mean over zero rows is NaN, and NaN > 0 is false; modelling the empty mean
as 0 preserves the exclusion behavior of the `> 0` filter. -/
def colFrac (c : List Value) : ℚ :=
  let h := c.take 1000
  if h.length = 0 then 0 else (h.countP Value.isna : ℚ) / (h.length : ℚ)

/-- The null-heatmap column selection (run_checks.py lines 173-178): the
columns of failing null_rate checks in encounter order, or — when that list
is empty — the positive-missing-fraction columns in descending fraction
order; in both cases filtered to existing columns and truncated to 14. -/
def vizCols (checks : List CheckRes) (ds : Dataset) : List String :=
  let nullCols := checks.filterMap (fun c =>
      if c.ctype = "null_rate" ∧ c.status = "fail" ∧ truthyCol c.column
      then c.column else none)
  let nullCols2 :=
    if nullCols.isEmpty then
      let fracs := ds.cols.map (fun p => (p.1, colFrac p.2))
      ((sortDesc (fun pr => pr.2) fracs).filter (fun pr => 0 < pr.2)).map
        (fun pr => pr.1)
    else nullCols
  (nullCols2.filter (fun c => ds.hasCol c)).take 14

/-- Modelled from the claim wording of C8, for comparison with `vizCols`: the
flat list of the columns referenced by the failing null_rate checks, in
encounter order, keeping the truthiness test of the source. -/
def referencedNullCols (checks : List CheckRes) : List String :=
  ((checks.filter (fun c => c.ctype = "null_rate" ∧ c.status = "fail")).filterMap
    (fun c => c.column)).filter (fun s => s ≠ "")

/-! ## Summary injection of run_all.py (lines 132-158) -/

/-- One check record as run_all.py reads it back from results.json. -/
structure RChk where
  status : String
  count : ℕ
deriving DecidableEq, Repr

/-- The summary block injected by run_all.py. -/
structure RSummary where
  dataset : String
  mode : String
  timestamp : String
  passed : ℕ
  failed : ℕ
  top_failing : List RChk
deriving DecidableEq, Repr

/-- The loaded results document, reduced to the fields run_all.py touches. -/
structure ResultsDoc where
  checks : List RChk
  summary : Option RSummary
deriving DecidableEq, Repr

/-- The summary computation of run_all.py (lines 137-155): when the document
has no summary, recount passed and failed from the checks list, take the top
five failing checks by descending count under the stable Python sort, and
inject the block; the augmented document is then written back. -/
def injectSummary (datasetName mode stamp : String) (doc : ResultsDoc) :
    ResultsDoc :=
  match doc.summary with
  | some _ => doc
  | none =>
    let passed := doc.checks.countP (fun c => c.status = "pass")
    let failed := doc.checks.countP (fun c => c.status = "fail")
    let topFailing := (sortDesc (fun c => c.count)
        (doc.checks.filter (fun c => c.status = "fail"))).take 5
    { doc with summary := some ⟨datasetName, mode, stamp, passed, failed, topFailing⟩ }

/-! ### Generic helper lemmas -/

/-- Counting a disjunction of pointwise-disjoint predicates splits into a
sum. -/
theorem countP_or_disjoint {α : Type} (p q : α → Bool) (l : List α)
    (h : ∀ x ∈ l, ¬(p x = true ∧ q x = true)) :
    l.countP (fun x => p x || q x) = l.countP p + l.countP q := by
  induction l with
  | nil => simp
  | cons a t ih =>
    have ha := h a (by simp)
    have ht : ∀ x ∈ t, ¬(p x = true ∧ q x = true) := fun x hx => h x (by simp [hx])
    simp only [List.countP_cons, ih ht]
    cases hp : p a <;> cases hq : q a <;> simp_all <;> omega

/-- The status literal of a pass/fail `if` is `pass` exactly when the scrutinee
holds. -/
theorem pass_if_iff (b : Bool) :
    ((if b then "pass" else "fail") = "pass") ↔ b = true := by
  cases b <;> decide

/-- The status literal of a fail/pass `if` is `fail` exactly when the scrutinee
holds. -/
theorem fail_if_iff (b : Bool) :
    ((if b then "fail" else "pass") = "fail") ↔ b = true := by
  cases b <;> decide

/-- The status literal of a fail/pass `if` is `pass` exactly when the
scrutinee fails. -/
theorem pass_if_not_iff (b : Bool) :
    ((if b then "fail" else "pass") = "pass") ↔ b = false := by
  cases b <;> decide

/-- Unfolding the optional-bound test for a natural bound. -/
theorem optNat_ok_iff (o : Option ℕ) (c : ℕ) :
    ((match o with | none => true | some m => decide (c ≤ m)) = true) ↔
      (∀ m, o = some m → c ≤ m) := by
  cases o <;> simp

/-- Unfolding the optional-bound test for a rational bound. -/
theorem optRat_ok_iff (o : Option ℚ) (x : ℚ) :
    ((match o with | none => true | some f => decide (x ≤ f)) = true) ↔
      (∀ f, o = some f → x ≤ f) := by
  cases o <;> simp

/-! ### Properties of the stable descending sort -/

/-- Inserting keeps the elements, up to permutation. -/
theorem insertDesc_perm {α β : Type} [LinearOrder β] (key : α → β) (x : α)
    (l : List α) : (insertDesc key x l).Perm (x :: l) := by
  induction l with
  | nil => simp [insertDesc]
  | cons y ys ih =>
    simp only [insertDesc]
    split
    · exact List.Perm.refl _
    · exact List.Perm.trans (List.Perm.cons y ih) (List.Perm.swap x y ys)

/-- The sort is a permutation of its input. -/
theorem sortDesc_perm {α β : Type} [LinearOrder β] (key : α → β)
    (l : List α) : (sortDesc key l).Perm l := by
  induction l with
  | nil => simp [sortDesc]
  | cons x xs ih =>
    exact List.Perm.trans (insertDesc_perm key x (sortDesc key xs))
      (List.Perm.cons x ih)

/-- Inserting into a descending-sorted list keeps it descending sorted. -/
theorem insertDesc_pairwise {α β : Type} [LinearOrder β] (key : α → β)
    (x : α) (l : List α) (hl : l.Pairwise (fun a b => key b ≤ key a)) :
    (insertDesc key x l).Pairwise (fun a b => key b ≤ key a) := by
  induction l with
  | nil => simp [insertDesc]
  | cons y ys ih =>
    rcases List.pairwise_cons.mp hl with ⟨hy, hys⟩
    simp only [insertDesc]
    split
    · rename_i hxy
      refine List.pairwise_cons.mpr ⟨?_, hl⟩
      intro b hb
      rcases List.mem_cons.mp hb with rfl | hbys
      · exact hxy
      · exact le_trans (hy b hbys) hxy
    · rename_i hxy
      push_neg at hxy
      refine List.pairwise_cons.mpr ⟨?_, ih hys⟩
      intro b hb
      have hb2 : b ∈ x :: ys := (insertDesc_perm key x ys).mem_iff.mp hb
      rcases List.mem_cons.mp hb2 with rfl | hbys
      · exact le_of_lt hxy
      · exact hy b hbys

/-- The sort output is descending sorted by the key. -/
theorem sortDesc_pairwise {α β : Type} [LinearOrder β] (key : α → β)
    (l : List α) : (sortDesc key l).Pairwise (fun a b => key b ≤ key a) := by
  induction l with
  | nil => simp [sortDesc]
  | cons x xs ih => exact insertDesc_pairwise key x (sortDesc key xs) ih

/-- When the new key dominates every key of the list, insertion prepends. -/
theorem insertDesc_of_le {α β : Type} [LinearOrder β] (key : α → β) (x : α)
    (l : List α) (h : ∀ z ∈ l, key z ≤ key x) :
    insertDesc key x l = x :: l := by
  cases l with
  | nil => rfl
  | cons y ys => simp [insertDesc, h y (by simp)]

/-- Filtering commutes with inserting into a sorted list. -/
theorem filter_insertDesc {α β : Type} [LinearOrder β] (key : α → β)
    (p : α → Bool) (x : α) (l : List α)
    (hl : l.Pairwise (fun a b => key b ≤ key a)) :
    (insertDesc key x l).filter p =
      if p x then insertDesc key x (l.filter p) else l.filter p := by
  induction l with
  | nil =>
    cases hpx : p x <;> simp [insertDesc, List.filter_cons, hpx]
  | cons y ys ih =>
    rcases List.pairwise_cons.mp hl with ⟨hy, hys⟩
    simp only [insertDesc]
    split
    · rename_i hxy
      cases hpx : p x
      · simp [List.filter_cons, hpx]
      · have hdom : ∀ z ∈ (y :: ys).filter p, key z ≤ key x := by
          intro z hz
          rcases List.mem_cons.mp (List.mem_of_mem_filter hz) with rfl | hzys
          · exact hxy
          · exact le_trans (hy z hzys) hxy
        rw [if_pos rfl, insertDesc_of_le key x _ hdom]
        simp [List.filter_cons, hpx]
    · rename_i hxy
      have ihy := ih hys
      cases hpx : p x <;> cases hpy : p y <;>
        simp [List.filter_cons, hpx, hpy, ihy, insertDesc, hxy]

/-- Filtering commutes with the stable descending sort. -/
theorem filter_sortDesc {α β : Type} [LinearOrder β] (key : α → β)
    (p : α → Bool) (l : List α) :
    (sortDesc key l).filter p = sortDesc key (l.filter p) := by
  induction l with
  | nil => rfl
  | cons x xs ih =>
    have hs := sortDesc_pairwise key xs
    have h1 := filter_insertDesc key p x (sortDesc key xs) hs
    cases hpx : p x
    · rw [show sortDesc key (x :: xs) = insertDesc key x (sortDesc key xs)
        from rfl, h1, hpx]
      simp only [List.filter_cons, hpx, cond_false, ite_false]
      exact ih
    · rw [show sortDesc key (x :: xs) = insertDesc key x (sortDesc key xs)
        from rfl, h1, hpx]
      simp only [List.filter_cons, hpx, cond_true, ite_true]
      rw [ih]
      rfl

/-- Sorting a list whose keys all agree is the identity. -/
theorem sortDesc_of_const {α β : Type} [LinearOrder β] (key : α → β)
    (k : β) (l : List α) (h : ∀ a ∈ l, key a = k) : sortDesc key l = l := by
  induction l with
  | nil => rfl
  | cons x xs ih =>
    have hx := h x (by simp)
    have hxs : ∀ a ∈ xs, key a = k := fun a ha => h a (by simp [ha])
    rw [show sortDesc key (x :: xs) = insertDesc key x (sortDesc key xs)
      from rfl, ih hxs]
    cases xs with
    | nil => rfl
    | cons y ys =>
      have hy := h y (by simp)
      simp [insertDesc, hx, hy]

/-- Stability: the elements of any fixed key keep their original relative
order through the sort. -/
theorem sortDesc_filter_key_eq {α β : Type} [LinearOrder β] (key : α → β)
    (k : β) (l : List α) :
    (sortDesc key l).filter (fun a => key a = k) =
      l.filter (fun a => key a = k) := by
  rw [filter_sortDesc]
  apply sortDesc_of_const
  intro a ha
  have := List.of_mem_filter ha
  exact of_decide_eq_true this

/-! ### Duplicate-flag characterization -/

/-- Equality of two row projections is equality column by column over the
selected names. -/
theorem projRow_eq_pairwise_iff (S : List String) (i j : ℕ) :
    ∀ l : List (String × List Value),
      (l.filterMap (fun p =>
          if p.1 ∈ S then some (p.2.getD i Value.missing) else none)
        = l.filterMap (fun p =>
          if p.1 ∈ S then some (p.2.getD j Value.missing) else none))
      ↔ ∀ p ∈ l, p.1 ∈ S →
          p.2.getD i Value.missing = p.2.getD j Value.missing := by
  intro l
  induction l with
  | nil => simp
  | cons a t ih =>
    by_cases hm : a.1 ∈ S
    · simp only [List.filterMap_cons, if_pos hm, List.cons.injEq, ih,
        List.forall_mem_cons]
      tauto
    · simp only [List.filterMap_cons, if_neg hm, ih, List.forall_mem_cons]
      tauto

/-- Under distinct column names, the name lookup of a member pair returns
that pair. -/
theorem find_name_of_mem :
    ∀ l : List (String × List Value), (l.map (fun p => p.1)).Nodup →
      ∀ p ∈ l, (match l.find? (fun q => q.1 = p.1) with
        | some q => q.2
        | none => ([] : List Value)) = p.2 := by
  intro l
  induction l with
  | nil => intro _ p hp; cases hp
  | cons a t ih =>
    intro hnd p hp
    rw [List.map_cons, List.nodup_cons] at hnd
    rcases List.mem_cons.mp hp with rfl | hpt
    · rw [List.find?_cons_of_pos _ (by simp)]
    · have hne : ¬(a.1 = p.1) := by
        intro he
        exact hnd.1 (he ▸ List.mem_map.mpr ⟨p, hpt, rfl⟩)
      rw [List.find?_cons_of_neg _ (by simp [hne])]
      exact ih hnd.2 p hpt

/-- Under distinct column names, row-projection equality over `S` is exactly
cell-level equality at every name of `S`. -/
theorem projRow_eq_iff_cellAt (ds : Dataset) (hnd : ds.names.Nodup)
    (S : List String) (i j : ℕ) :
    ds.projRow S i = ds.projRow S j ↔
      ∀ s ∈ S, ds.cellAt s i = ds.cellAt s j := by
  rw [show ds.projRow S i = ds.cols.filterMap (fun p =>
      if p.1 ∈ S then some (p.2.getD i Value.missing) else none) from rfl,
    show ds.projRow S j = ds.cols.filterMap (fun p =>
      if p.1 ∈ S then some (p.2.getD j Value.missing) else none) from rfl,
    projRow_eq_pairwise_iff]
  constructor
  · intro h s hs
    unfold Dataset.cellAt Dataset.lookupCol
    cases hfind : ds.cols.find? (fun q => q.1 = s) with
    | none => rfl
    | some q =>
      have hq0 := List.find?_some hfind
      have hq1 : q.1 = s := by simpa using hq0
      exact h q (List.mem_of_find?_eq_some hfind) (hq1 ▸ hs)
  · intro h p hp hpS
    have hcell := h p.1 hpS
    unfold Dataset.cellAt at hcell
    have hlook : ds.lookupCol p.1 = p.2 := find_name_of_mem ds.cols hnd p hp
    rw [hlook] at hcell
    exact hcell

/-- The duplicate flag of row `i`: an earlier row has the same projection. -/
theorem dupFlags_getD (ds : Dataset) (S : List String) (i : ℕ)
    (hi : i < ds.nRows) :
    ((dupFlags ds S).getD i false = true ↔
      ∃ j < i, ds.projRow S j = ds.projRow S i) := by
  unfold dupFlags
  rw [List.getD_eq_getElem?_getD, List.getElem?_map, List.getElem?_range hi]
  simp [List.mem_range]

/-! ### Row-count behavior of the fix steps -/

/-- Mapping a column-length-preserving function over the columns preserves
the row count. -/
theorem nRows_map_of_len (f : String × List Value → String × List Value)
    (hf : ∀ p, (f p).2.length = p.2.length) (ds : Dataset) :
    (Dataset.mk (ds.cols.map f)).nRows = ds.nRows := by
  obtain ⟨cols⟩ := ds
  cases cols with
  | nil => rfl
  | cons c t => simp [Dataset.nRows, hf]

/-- `trim_strings` never changes the row count. -/
theorem trim_strings_nRows (df : Dataset) (rep : FixReport) (tname : String) :
    (trim_strings df rep tname).1.nRows = df.nRows := by
  have hmk : (trim_strings df rep tname).1 = ⟨df.cols.map (fun p =>
      if isObjectDtype p.2 then (p.1, p.2.map trimCell) else p)⟩ := rfl
  rw [hmk]
  apply nRows_map_of_len
  intro p
  by_cases h : isObjectDtype p.2 <;> simp [h]

/-- Replacing a column by a list of the same length as the looked-up column
preserves the row count. -/
theorem setCol_nRows (ds : Dataset) (name : String) (vs : List Value)
    (hlen : vs.length = (ds.lookupCol name).length) :
    (ds.setCol name vs).nRows = ds.nRows := by
  obtain ⟨cols⟩ := ds
  cases cols with
  | nil => rfl
  | cons c t =>
    by_cases hc : c.1 = name
    · have hlook : (Dataset.mk (c :: t)).lookupCol name = c.2 := by
        unfold Dataset.lookupCol
        rw [show (Dataset.mk (c :: t)).cols = c :: t from rfl,
          List.find?_cons_of_pos _ (by simp [hc])]
      rw [hlook] at hlen
      simp [Dataset.setCol, Dataset.nRows, hc, hlen]
    · simp [Dataset.setCol, Dataset.nRows, hc]

/-- `clip_range` never changes the row count. -/
theorem clip_range_nRows (toNum : Value → Option ℚ) (df : Dataset)
    (column : String) (minv maxv : Option ℚ) (rep : FixReport)
    (tname : String) :
    (clip_range toNum df column minv maxv rep tname).1.nRows = df.nRows := by
  unfold clip_range
  split
  · dsimp only
    split
    · exact setCol_nRows df column _ (by simp)
    · rfl
  · rfl

/-- `enforce_enum` never changes the dataset at all. -/
theorem enforce_enum_dataset (df : Dataset) (column : String)
    (allowed : List Value) (rep : FixReport) (tname : String) :
    (enforce_enum df column allowed rep tname).1 = df := by
  unfold enforce_enum
  split
  · dsimp only
    split <;> rfl
  · rfl

/-- `fill_nulls` never changes the row count. -/
theorem fill_nulls_nRows (df : Dataset) (column : String) (fv : Value)
    (rep : FixReport) (tname : String) :
    (fill_nulls df column fv rep tname).1.nRows = df.nRows := by
  unfold fill_nulls
  split
  · dsimp only
    split
    · exact setCol_nRows df column _ (by simp)
    · rfl
  · rfl

/-- `parse_dates` never changes the row count. -/
theorem parse_dates_nRows (toDate : Value → Option ℤ) (df : Dataset)
    (column : String) (rep : FixReport) (tname : String) :
    (parse_dates toDate df column rep tname).1.nRows = df.nRows := by
  unfold parse_dates
  split
  · dsimp only
    split
    · exact setCol_nRows df column _ (by simp)
    · rfl
  · rfl

/-- Dropping the flagged cells of a column never lengthens it. -/
theorem keepUnflagged_length_le (flags : List Bool) (c : List Value) :
    (keepUnflagged flags c).length ≤ c.length := by
  unfold keepUnflagged
  calc ((flags.zip c).filterMap
        (fun fv => if fv.1 then none else some fv.2)).length
      ≤ (flags.zip c).length := List.length_filterMap_le _ _
    _ ≤ c.length := by rw [List.length_zip]; exact min_le_right _ _

/-- `drop_exact_duplicates` never increases the row count. -/
theorem drop_exact_duplicates_nRows_le (df : Dataset)
    (subset : Option (List String)) (rep : FixReport) (tname : String) :
    (drop_exact_duplicates df subset rep tname).1.nRows ≤ df.nRows := by
  unfold drop_exact_duplicates
  dsimp only
  split
  · obtain ⟨cols⟩ := df
    cases cols with
    | nil => exact le_refl _
    | cons c t => simpa [Dataset.nRows] using keepUnflagged_length_le _ c.2
  · exact le_refl _

/-- One column-check dispatch never changes the row count. -/
theorem applyColCheck_nRows (toNum : Value → Option ℚ)
    (toDate : Value → Option ℤ) (table cname : String) (chk : ColCheck)
    (df : Dataset) (rep : FixReport) :
    (applyColCheck toNum toDate table cname chk df rep).1.nRows = df.nRows := by
  cases chk with
  | range minv maxv => exact clip_range_nRows toNum df cname minv maxv rep table
  | enum allowed =>
    cases allowed with
    | some a =>
      show (enforce_enum df cname a rep table).1.nRows = df.nRows
      rw [enforce_enum_dataset]
    | none => rfl
  | null_rate mn mf fill =>
    cases fill with
    | some v => exact fill_nulls_nRows df cname v rep table
    | none => rfl
  | freshness a b => exact parse_dates_nRows toDate df cname rep table
  | other tag => rfl

/-- The duplicate-drop fold over the table checks never increases the row
count. -/
theorem fold_tablechecks_nRows_le (tname : String) :
    ∀ (checks : List TableCheck) (acc : Dataset × FixReport),
      ((checks.foldl (fun acc chk =>
          match chk with
          | TableCheck.duplicate subset =>
              drop_exact_duplicates acc.1 subset acc.2 tname
          | TableCheck.otherT _ => acc) acc).1).nRows ≤ acc.1.nRows := by
  intro checks
  induction checks with
  | nil => intro acc; exact le_refl _
  | cons c cs ih =>
    intro acc
    refine le_trans (ih _) ?_
    cases c with
    | duplicate subset => exact drop_exact_duplicates_nRows_le acc.1 subset acc.2 tname
    | otherT tag => exact le_refl _

/-- The column-check fold preserves the row count. -/
theorem fold_colchecks_nRows (toNum : Value → Option ℚ)
    (toDate : Value → Option ℤ) (tname cname : String) :
    ∀ (checks : List ColCheck) (acc : Dataset × FixReport),
      ((checks.foldl (fun acc2 chk =>
          applyColCheck toNum toDate tname cname chk acc2.1 acc2.2) acc).1).nRows
        = acc.1.nRows := by
  intro checks
  induction checks with
  | nil => intro acc; rfl
  | cons c cs ih =>
    intro acc
    rw [List.foldl_cons, ih]
    exact applyColCheck_nRows toNum toDate tname cname c acc.1 acc.2

/-- The column-rule fold preserves the row count. -/
theorem fold_columns_nRows (toNum : Value → Option ℚ)
    (toDate : Value → Option ℤ) (tname : String) :
    ∀ (columnRules : List ColumnRule) (acc : Dataset × FixReport),
      ((columnRules.foldl (fun acc cr =>
          cr.checks.foldl (fun acc2 chk =>
            applyColCheck toNum toDate tname cr.name chk acc2.1 acc2.2) acc)
        acc).1).nRows = acc.1.nRows := by
  intro columnRules
  induction columnRules with
  | nil => intro acc; rfl
  | cons cr crs ih =>
    intro acc
    rw [List.foldl_cons, ih]
    exact fold_colchecks_nRows toNum toDate tname cr.name cr.checks acc

/-- One table rule never increases the row count. -/
theorem applyTableRule_nRows_le (toNum : Value → Option ℚ)
    (toDate : Value → Option ℤ) (t : TableRule) (df : Dataset)
    (rep : FixReport) :
    (applyTableRule toNum toDate t df rep).1.nRows ≤ df.nRows := by
  unfold applyTableRule
  dsimp only
  rw [fold_columns_nRows]
  refine le_trans (fold_tablechecks_nRows_le t.name t.checks _) ?_
  rw [trim_strings_nRows]

/-- The table fold never increases the row count. -/
theorem fold_tables_nRows_le (toNum : Value → Option ℚ)
    (toDate : Value → Option ℤ) :
    ∀ (tables : List TableRule) (acc : Dataset × FixReport),
      ((tables.foldl (fun acc t =>
          applyTableRule toNum toDate t acc.1 acc.2) acc).1).nRows
        ≤ acc.1.nRows := by
  intro tables
  induction tables with
  | nil => intro acc; exact le_refl _
  | cons t ts ih =>
    intro acc
    refine le_trans (ih _) ?_
    exact applyTableRule_nRows_le toNum toDate t acc.1 acc.2

/-! ### Report-total preservation through the fix steps -/

/-- `FixReport.add` keeps both totals. -/
theorem FixReport.add_before (r : FixReport) (rule table : String)
    (column : Option String) (action : String) (affected : ℕ)
    (notes : String) :
    (r.add rule table column action affected notes).total_rows_before
      = r.total_rows_before := rfl

/-- `trim_strings` keeps the before total. -/
theorem trim_strings_before (df : Dataset) (rep : FixReport) (tname : String) :
    (trim_strings df rep tname).2.total_rows_before
      = rep.total_rows_before := by
  unfold trim_strings
  dsimp only
  split <;> rfl

/-- `drop_exact_duplicates` keeps the before total. -/
theorem drop_exact_duplicates_before (df : Dataset)
    (subset : Option (List String)) (rep : FixReport) (tname : String) :
    (drop_exact_duplicates df subset rep tname).2.total_rows_before
      = rep.total_rows_before := by
  unfold drop_exact_duplicates
  dsimp only
  split <;> rfl

/-- `clip_range` keeps the before total. -/
theorem clip_range_before (toNum : Value → Option ℚ) (df : Dataset)
    (column : String) (minv maxv : Option ℚ) (rep : FixReport)
    (tname : String) :
    (clip_range toNum df column minv maxv rep tname).2.total_rows_before
      = rep.total_rows_before := by
  unfold clip_range
  split
  · dsimp only
    split <;> rfl
  · rfl

/-- `enforce_enum` keeps the before total. -/
theorem enforce_enum_before (df : Dataset) (column : String)
    (allowed : List Value) (rep : FixReport) (tname : String) :
    (enforce_enum df column allowed rep tname).2.total_rows_before
      = rep.total_rows_before := by
  unfold enforce_enum
  split
  · dsimp only
    split <;> rfl
  · rfl

/-- `fill_nulls` keeps the before total. -/
theorem fill_nulls_before (df : Dataset) (column : String) (fv : Value)
    (rep : FixReport) (tname : String) :
    (fill_nulls df column fv rep tname).2.total_rows_before
      = rep.total_rows_before := by
  unfold fill_nulls
  split
  · dsimp only
    split <;> rfl
  · rfl

/-- `parse_dates` keeps the before total. -/
theorem parse_dates_before (toDate : Value → Option ℤ) (df : Dataset)
    (column : String) (rep : FixReport) (tname : String) :
    (parse_dates toDate df column rep tname).2.total_rows_before
      = rep.total_rows_before := by
  unfold parse_dates
  split
  · dsimp only
    split <;> rfl
  · rfl

/-- One column-check dispatch keeps the before total. -/
theorem applyColCheck_before (toNum : Value → Option ℚ)
    (toDate : Value → Option ℤ) (table cname : String) (chk : ColCheck)
    (df : Dataset) (rep : FixReport) :
    (applyColCheck toNum toDate table cname chk df rep).2.total_rows_before
      = rep.total_rows_before := by
  cases chk with
  | range minv maxv => exact clip_range_before toNum df cname minv maxv rep table
  | enum allowed =>
    cases allowed with
    | some a => exact enforce_enum_before df cname a rep table
    | none => rfl
  | null_rate mn mf fill =>
    cases fill with
    | some v => exact fill_nulls_before df cname v rep table
    | none => rfl
  | freshness a b => exact parse_dates_before toDate df cname rep table
  | other tag => rfl

/-- The duplicate-drop fold keeps the before total. -/
theorem fold_tablechecks_before (tname : String) :
    ∀ (checks : List TableCheck) (acc : Dataset × FixReport),
      ((checks.foldl (fun acc chk =>
          match chk with
          | TableCheck.duplicate subset =>
              drop_exact_duplicates acc.1 subset acc.2 tname
          | TableCheck.otherT _ => acc) acc).2).total_rows_before
        = acc.2.total_rows_before := by
  intro checks
  induction checks with
  | nil => intro acc; rfl
  | cons c cs ih =>
    intro acc
    rw [List.foldl_cons, ih]
    cases c with
    | duplicate subset =>
      exact drop_exact_duplicates_before acc.1 subset acc.2 tname
    | otherT tag => rfl

/-- The column-check fold keeps the before total. -/
theorem fold_colchecks_before (toNum : Value → Option ℚ)
    (toDate : Value → Option ℤ) (tname cname : String) :
    ∀ (checks : List ColCheck) (acc : Dataset × FixReport),
      ((checks.foldl (fun acc2 chk =>
          applyColCheck toNum toDate tname cname chk acc2.1 acc2.2)
        acc).2).total_rows_before = acc.2.total_rows_before := by
  intro checks
  induction checks with
  | nil => intro acc; rfl
  | cons c cs ih =>
    intro acc
    rw [List.foldl_cons, ih]
    exact applyColCheck_before toNum toDate tname cname c acc.1 acc.2

/-- The column-rule fold keeps the before total. -/
theorem fold_columns_before (toNum : Value → Option ℚ)
    (toDate : Value → Option ℤ) (tname : String) :
    ∀ (columnRules : List ColumnRule) (acc : Dataset × FixReport),
      ((columnRules.foldl (fun acc cr =>
          cr.checks.foldl (fun acc2 chk =>
            applyColCheck toNum toDate tname cr.name chk acc2.1 acc2.2) acc)
        acc).2).total_rows_before = acc.2.total_rows_before := by
  intro columnRules
  induction columnRules with
  | nil => intro acc; rfl
  | cons cr crs ih =>
    intro acc
    rw [List.foldl_cons, ih]
    exact fold_colchecks_before toNum toDate tname cr.name cr.checks acc

/-- One table rule keeps the before total. -/
theorem applyTableRule_before (toNum : Value → Option ℚ)
    (toDate : Value → Option ℤ) (t : TableRule) (df : Dataset)
    (rep : FixReport) :
    (applyTableRule toNum toDate t df rep).2.total_rows_before
      = rep.total_rows_before := by
  unfold applyTableRule
  dsimp only
  rw [fold_columns_before, fold_tablechecks_before]
  exact trim_strings_before df rep t.name

/-- The table fold keeps the before total. -/
theorem fold_tables_before (toNum : Value → Option ℚ)
    (toDate : Value → Option ℤ) :
    ∀ (tables : List TableRule) (acc : Dataset × FixReport),
      ((tables.foldl (fun acc t =>
          applyTableRule toNum toDate t acc.1 acc.2) acc).2).total_rows_before
        = acc.2.total_rows_before := by
  intro tables
  induction tables with
  | nil => intro acc; rfl
  | cons t ts ih =>
    intro acc
    rw [List.foldl_cons, ih]
    exact applyTableRule_before toNum toDate t acc.1 acc.2

end DQS

/-! ## Claim C6 -/

/-- Claim C6 (refuted, the code is the slip): evaluating a `range` check with
neither `min` nor `max` set does NOT produce a passing Check Result with
count 0; instead `_mask_range` computes `False | False`, a plain Python bool,
and the `.fillna(False)` call on it raises `AttributeError`, crashing the run.
Here the crash is the `none` outcome, exhibited on the concrete column `[5]`
of the specification example shapes. -/
theorem C6_range_without_bounds_crashes :
    DQS.evalRange DQS.basicToNum none none [DQS.Value.num 5] = none := by
  rfl

/-! ## Claim C3 -/

/-- Claim C3 (confirmed): for a null_rate check on an existing column, the
count equals the number of missing values in the column, and the check passes
exactly when (max_nulls is absent or count is at most max_nulls) and
(max_null_frac is absent or count divided by max(1, dataset row count) is at
most max_null_frac); otherwise it fails. -/
theorem C3_null_rate_semantics (maxNulls : Option ℕ) (maxFrac : Option ℚ)
    (ds : DQS.Dataset) (cname : String) (_hcol : ds.hasCol cname = true) :
    (DQS.evalNullRate maxNulls maxFrac ds cname).1
        = (ds.lookupCol cname).countP DQS.Value.isna
      ∧ ((DQS.evalNullRate maxNulls maxFrac ds cname).2 = "pass" ↔
          ((∀ m, maxNulls = some m →
              (ds.lookupCol cname).countP DQS.Value.isna ≤ m)
           ∧ (∀ f, maxFrac = some f →
              ((ds.lookupCol cname).countP DQS.Value.isna : ℚ)
                / ((max 1 ds.nRows : ℕ) : ℚ) ≤ f)))
      ∧ ((DQS.evalNullRate maxNulls maxFrac ds cname).2 = "fail" ↔
          ¬ ((∀ m, maxNulls = some m →
              (ds.lookupCol cname).countP DQS.Value.isna ≤ m)
           ∧ (∀ f, maxFrac = some f →
              ((ds.lookupCol cname).countP DQS.Value.isna : ℚ)
                / ((max 1 ds.nRows : ℕ) : ℚ) ≤ f))) := by
  have hpass :
      (DQS.evalNullRate maxNulls maxFrac ds cname).2 = "pass" ↔
        ((∀ m, maxNulls = some m →
            (ds.lookupCol cname).countP DQS.Value.isna ≤ m)
         ∧ (∀ f, maxFrac = some f →
            ((ds.lookupCol cname).countP DQS.Value.isna : ℚ)
              / ((max 1 ds.nRows : ℕ) : ℚ) ≤ f)) := by
    simp only [DQS.evalNullRate]
    rw [DQS.pass_if_iff, Bool.and_eq_true, DQS.optNat_ok_iff, DQS.optRat_ok_iff]
  have hdich :
      (DQS.evalNullRate maxNulls maxFrac ds cname).2 = "pass"
      ∨ (DQS.evalNullRate maxNulls maxFrac ds cname).2 = "fail" := by
    simp only [DQS.evalNullRate]
    split <;> simp
  refine ⟨rfl, hpass, ?_⟩
  constructor
  · intro hf hc
    have := hpass.mpr hc
    rw [hf] at this
    exact absurd this (by decide)
  · intro hnc
    rcases hdich with hp | hf
    · exact absurd (hpass.mp hp) hnc
    · exact hf

/-- Witness for C3, the null-rate scenario of the specification: four cells
with two missing values under max_nulls 0 give count 2 and status fail. -/
theorem C3_null_rate_semantics_witness :
    (DQS.Dataset.hasCol ⟨[("notes", [DQS.Value.str "a", DQS.Value.missing,
        DQS.Value.str "b", DQS.Value.missing])]⟩ "notes" = true)
    ∧ (DQS.evalNullRate (some 0) none
        ⟨[("notes", [DQS.Value.str "a", DQS.Value.missing,
          DQS.Value.str "b", DQS.Value.missing])]⟩ "notes").1 = 2
    ∧ (DQS.evalNullRate (some 0) none
        ⟨[("notes", [DQS.Value.str "a", DQS.Value.missing,
          DQS.Value.str "b", DQS.Value.missing])]⟩ "notes").2 = "fail" := by
  have h := C3_null_rate_semantics (some 0) none
    ⟨[("notes", [DQS.Value.str "a", DQS.Value.missing,
      DQS.Value.str "b", DQS.Value.missing])]⟩ "notes" rfl
  refine ⟨rfl, by rw [h.1]; rfl, ?_⟩
  refine h.2.2.mpr ?_
  intro hc
  have h0 := hc.1 0 rfl
  have h2 : (DQS.Dataset.lookupCol
      ⟨[("notes", [DQS.Value.str "a", DQS.Value.missing,
        DQS.Value.str "b", DQS.Value.missing])]⟩ "notes").countP
        DQS.Value.isna = 2 := rfl
  rw [h2] at h0
  omega

/-! ## Claim C4 -/

/-- Claim C4 (confirmed): for a freshness check, the count equals the number
of cells that were present but failed to parse as a date, plus — when
max_age_days is set — the number of cells whose parsed age in whole days
exceeds max_age_days; the status is fail exactly when max_age_days was
provided and the count is positive, so a freshness check without max_age_days
reports pass even with a positive count. -/
theorem C4_freshness_semantics (toDate : DQS.Value → Option ℤ) (now : ℤ)
    (maxAge : Option ℤ) (ds : DQS.Dataset) (cname : String)
    (_hcol : ds.hasCol cname = true) :
    (DQS.evalFreshness toDate now maxAge ds cname).1
        = (ds.lookupCol cname).countP
            (fun v => decide (toDate v = none) && !v.isna)
          + (match maxAge with
             | none => 0
             | some m => (ds.lookupCol cname).countP
                 (fun v => match toDate v with
                   | some t => decide (m < now - t)
                   | none => false))
      ∧ ((DQS.evalFreshness toDate now maxAge ds cname).2 = "fail" ↔
          maxAge ≠ none ∧ 0 < (DQS.evalFreshness toDate now maxAge ds cname).1)
      ∧ (maxAge = none →
          (DQS.evalFreshness toDate now maxAge ds cname).2 = "pass") := by
  have hcnt :
      (DQS.evalFreshness toDate now maxAge ds cname).1
        = (ds.lookupCol cname).countP
            (fun v => decide (toDate v = none) && !v.isna)
          + (match maxAge with
             | none => 0
             | some m => (ds.lookupCol cname).countP
                 (fun v => match toDate v with
                   | some t => decide (m < now - t)
                   | none => false)) := by
    cases maxAge with
    | none =>
      simp only [DQS.evalFreshness, DQS.maskFreshness]
      rw [List.countP_map]
      simp [Function.comp]
    | some m =>
      simp only [DQS.evalFreshness, DQS.maskFreshness]
      rw [List.countP_map]
      have hdisj : ∀ v ∈ ds.lookupCol cname,
          ¬((fun v => decide (toDate v = none) && !DQS.Value.isna v) v = true
            ∧ (fun v => match toDate v with
                 | some t => decide (m < now - t)
                 | none => false) v = true) := by
        intro v _ hboth
        rcases hboth with ⟨h1, h2⟩
        simp only [Bool.and_eq_true, decide_eq_true_eq] at h1
        have h2' : (match toDate v with
            | some t => decide (m < now - t)
            | none => false) = true := h2
        rw [h1.1] at h2'
        exact Bool.false_ne_true h2'
      have := DQS.countP_or_disjoint
        (fun v => decide (toDate v = none) && !DQS.Value.isna v)
        (fun v => match toDate v with
          | some t => decide (m < now - t)
          | none => false)
        (ds.lookupCol cname) hdisj
      rw [← this]
      simp [Function.comp]
  refine ⟨hcnt, ?_, ?_⟩
  · simp only [DQS.evalFreshness]
    rw [DQS.fail_if_iff, Bool.and_eq_true, decide_eq_true_eq,
      Option.isSome_iff_ne_none]
  · intro hnone
    subst hnone
    simp [DQS.evalFreshness]

/-- Witness for C4, the freshness-asymmetry scenario of the specification:
two present but unparsable date strings under a freshness check without
max_age_days give count 2 and status pass. -/
theorem C4_freshness_semantics_witness :
    (DQS.Dataset.hasCol
        ⟨[("d", [DQS.Value.str "x", DQS.Value.str "y"])]⟩ "d" = true)
    ∧ (DQS.evalFreshness DQS.basicToDate 0 none
        ⟨[("d", [DQS.Value.str "x", DQS.Value.str "y"])]⟩ "d").1 = 2
    ∧ (DQS.evalFreshness DQS.basicToDate 0 none
        ⟨[("d", [DQS.Value.str "x", DQS.Value.str "y"])]⟩ "d").2 = "pass" := by
  have h := C4_freshness_semantics DQS.basicToDate 0 none
    ⟨[("d", [DQS.Value.str "x", DQS.Value.str "y"])]⟩ "d" rfl
  exact ⟨rfl, by rw [h.1]; rfl, h.2.2 rfl⟩

/-! ## Claim C9 -/

/-- Claim C9 (confirmed): given a loadable results document without a summary
field, the orchestrator injects a summary whose passed and failed totals are
recounted from the checks list and whose top_failing is exactly the at most
five failing checks with the largest count, sorted purely by descending count
with ties keeping the original relative order (stability is stated as: for
every count value, the failing checks of that count appear in their original
order), after which the augmented document is written back; the checks list
itself is unchanged.  The write-back to the results.json path is a filesystem
side effect outside the data model; the theorem is about the augmented
document. -/
theorem C9_summary_injection (datasetName mode stamp : String)
    (doc : DQS.ResultsDoc) (h : doc.summary = none) :
    ∃ s, (DQS.injectSummary datasetName mode stamp doc).summary = some s
      ∧ s.passed = doc.checks.countP (fun c => c.status = "pass")
      ∧ s.failed = doc.checks.countP (fun c => c.status = "fail")
      ∧ s.dataset = datasetName ∧ s.mode = mode ∧ s.timestamp = stamp
      ∧ s.top_failing.length ≤ 5
      ∧ (∃ full : List DQS.RChk,
          s.top_failing = full.take 5
          ∧ full.Perm (doc.checks.filter (fun c => c.status = "fail"))
          ∧ full.Pairwise (fun a b => b.count ≤ a.count)
          ∧ ∀ k : ℕ, full.filter (fun c => c.count = k)
              = (doc.checks.filter (fun c => c.status = "fail")).filter
                  (fun c => c.count = k))
      ∧ (DQS.injectSummary datasetName mode stamp doc).checks = doc.checks := by
  refine ⟨⟨datasetName, mode, stamp,
    doc.checks.countP (fun c => c.status = "pass"),
    doc.checks.countP (fun c => c.status = "fail"),
    (DQS.sortDesc (fun c : DQS.RChk => c.count)
      (doc.checks.filter (fun c => c.status = "fail"))).take 5⟩, ?_, rfl, rfl,
    rfl, rfl, rfl, List.length_take_le 5 _, ?_, ?_⟩
  · simp [DQS.injectSummary, h]
  · refine ⟨DQS.sortDesc (fun c : DQS.RChk => c.count)
      (doc.checks.filter (fun c => c.status = "fail")), rfl,
      DQS.sortDesc_perm _ _, DQS.sortDesc_pairwise _ _, ?_⟩
    intro k
    exact DQS.sortDesc_filter_key_eq (fun c : DQS.RChk => c.count) k _
  · simp [DQS.injectSummary, h]

/-- Witness for C9: a concrete document with three failing checks of counts
1, 3, 1 and one passing check; the injected summary counts 1 pass, 3 fails
and ranks the failing checks stably by descending count. -/
theorem C9_summary_injection_witness :
    (∃ s, (DQS.injectSummary "d" "plain" "t"
        ⟨[⟨"fail", 1⟩, ⟨"pass", 5⟩, ⟨"fail", 3⟩, ⟨"fail", 1⟩], none⟩).summary
          = some s)
    ∧ (DQS.injectSummary "d" "plain" "t"
        ⟨[⟨"fail", 1⟩, ⟨"pass", 5⟩, ⟨"fail", 3⟩, ⟨"fail", 1⟩], none⟩).summary
      = some ⟨"d", "plain", "t", 1, 3,
          [⟨"fail", 3⟩, ⟨"fail", 1⟩, ⟨"fail", 1⟩]⟩ := by
  constructor
  · obtain ⟨s, hs, -⟩ := C9_summary_injection "d" "plain" "t"
      ⟨[⟨"fail", 1⟩, ⟨"pass", 5⟩, ⟨"fail", 3⟩, ⟨"fail", 1⟩], none⟩ rfl
    exact ⟨s, hs⟩
  · rfl

/-! ## Claim C5 -/

/-- Claim C5 (confirmed): for a duplicate check with subset S (all dataset
columns when the subset is absent), a row is flagged exactly when some
earlier row in dataset order has identical values across S; the count is the
number of flagged rows and the status is fail exactly when the count is
positive.  Distinct column names are assumed, as pandas guarantees them after
CSV ingestion. -/
theorem C5_duplicate_semantics (ds : DQS.Dataset)
    (subset : Option (List String)) (hnd : ds.names.Nodup) :
    ((DQS.evalDuplicate subset ds).1
        = (DQS.dupFlags ds (DQS.effSubset subset ds)).countP id)
    ∧ (∀ i, i < ds.nRows →
        (((DQS.dupFlags ds (DQS.effSubset subset ds)).getD i false) = true ↔
          ∃ j < i, ∀ s ∈ DQS.effSubset subset ds,
            ds.cellAt s j = ds.cellAt s i))
    ∧ ((DQS.evalDuplicate subset ds).2 = "fail"
        ↔ 0 < (DQS.evalDuplicate subset ds).1) := by
  refine ⟨rfl, ?_, ?_⟩
  · intro i hi
    rw [DQS.dupFlags_getD ds _ i hi]
    constructor
    · rintro ⟨j, hj, he⟩
      exact ⟨j, hj, (DQS.projRow_eq_iff_cellAt ds hnd _ j i).mp he⟩
    · rintro ⟨j, hj, he⟩
      exact ⟨j, hj, (DQS.projRow_eq_iff_cellAt ds hnd _ j i).mpr he⟩
  · simp only [DQS.evalDuplicate]
    split <;> rename_i hc <;> simp [hc]

/-- Witness for C5, the duplicate scenario of the specification: rows
(1,10),(1,15),(2,20),(3,25) with subset [id] give count 1 and status fail,
and row 1 is flagged because row 0 agrees on the id column. -/
theorem C5_duplicate_semantics_witness :
    DQS.evalDuplicate (some ["id"])
      ⟨[("id", [DQS.Value.num 1, DQS.Value.num 1, DQS.Value.num 2,
          DQS.Value.num 3]),
        ("amount", [DQS.Value.num 10, DQS.Value.num 15, DQS.Value.num 20,
          DQS.Value.num 25])]⟩ = (1, "fail")
    ∧ (((DQS.dupFlags
        ⟨[("id", [DQS.Value.num 1, DQS.Value.num 1, DQS.Value.num 2,
            DQS.Value.num 3]),
          ("amount", [DQS.Value.num 10, DQS.Value.num 15, DQS.Value.num 20,
            DQS.Value.num 25])]⟩
        (DQS.effSubset (some ["id"])
          ⟨[("id", [DQS.Value.num 1, DQS.Value.num 1, DQS.Value.num 2,
              DQS.Value.num 3]),
            ("amount", [DQS.Value.num 10, DQS.Value.num 15, DQS.Value.num 20,
              DQS.Value.num 25])]⟩)).getD 1 false) = true ↔
        ∃ j < 1, ∀ s ∈ DQS.effSubset (some ["id"])
            ⟨[("id", [DQS.Value.num 1, DQS.Value.num 1, DQS.Value.num 2,
                DQS.Value.num 3]),
              ("amount", [DQS.Value.num 10, DQS.Value.num 15, DQS.Value.num 20,
                DQS.Value.num 25])]⟩,
          DQS.Dataset.cellAt
            ⟨[("id", [DQS.Value.num 1, DQS.Value.num 1, DQS.Value.num 2,
                DQS.Value.num 3]),
              ("amount", [DQS.Value.num 10, DQS.Value.num 15, DQS.Value.num 20,
                DQS.Value.num 25])]⟩ s j
          = DQS.Dataset.cellAt
            ⟨[("id", [DQS.Value.num 1, DQS.Value.num 1, DQS.Value.num 2,
                DQS.Value.num 3]),
              ("amount", [DQS.Value.num 10, DQS.Value.num 15, DQS.Value.num 20,
                DQS.Value.num 25])]⟩ s 1) := by
  have h := C5_duplicate_semantics
    ⟨[("id", [DQS.Value.num 1, DQS.Value.num 1, DQS.Value.num 2,
        DQS.Value.num 3]),
      ("amount", [DQS.Value.num 10, DQS.Value.num 15, DQS.Value.num 20,
        DQS.Value.num 25])]⟩ (some ["id"]) (by decide)
  exact ⟨rfl, h.2.1 1 (by decide)⟩

/-! ## Claim C7 -/

/-- Claim C7 (confirmed): every fix run produces a Fix Report whose
total_rows_after is at most its total_rows_before, and among the fix steps
only the duplicate drop can change the row count: trim, clip, enum
quarantine, null fill and date parse each return a dataset with the row
count of their input, while the duplicate drop never increases it. -/
theorem C7_row_count_invariants :
    (∀ (df : DQS.Dataset) (rep : DQS.FixReport) (tname : String),
        (DQS.trim_strings df rep tname).1.nRows = df.nRows)
    ∧ (∀ (toNum : DQS.Value → Option ℚ) (df : DQS.Dataset) (column : String)
        (minv maxv : Option ℚ) (rep : DQS.FixReport) (tname : String),
        (DQS.clip_range toNum df column minv maxv rep tname).1.nRows = df.nRows)
    ∧ (∀ (df : DQS.Dataset) (column : String) (allowed : List DQS.Value)
        (rep : DQS.FixReport) (tname : String),
        (DQS.enforce_enum df column allowed rep tname).1.nRows = df.nRows)
    ∧ (∀ (df : DQS.Dataset) (column : String) (fv : DQS.Value)
        (rep : DQS.FixReport) (tname : String),
        (DQS.fill_nulls df column fv rep tname).1.nRows = df.nRows)
    ∧ (∀ (toDate : DQS.Value → Option ℤ) (df : DQS.Dataset) (column : String)
        (rep : DQS.FixReport) (tname : String),
        (DQS.parse_dates toDate df column rep tname).1.nRows = df.nRows)
    ∧ (∀ (df : DQS.Dataset) (subset : Option (List String))
        (rep : DQS.FixReport) (tname : String),
        (DQS.drop_exact_duplicates df subset rep tname).1.nRows ≤ df.nRows)
    ∧ (∀ (toNum : DQS.Value → Option ℚ) (toDate : DQS.Value → Option ℤ)
        (tables : List DQS.TableRule) (df : DQS.Dataset),
        (DQS.runFixPipeline toNum toDate tables df).2.total_rows_before
            = some df.nRows
        ∧ (DQS.runFixPipeline toNum toDate tables df).2.total_rows_after
            = some (DQS.runFixPipeline toNum toDate tables df).1.nRows
        ∧ (DQS.runFixPipeline toNum toDate tables df).1.nRows ≤ df.nRows) := by
  refine ⟨DQS.trim_strings_nRows, DQS.clip_range_nRows,
    (fun df column allowed rep tname => by
      rw [DQS.enforce_enum_dataset]), DQS.fill_nulls_nRows,
    DQS.parse_dates_nRows, DQS.drop_exact_duplicates_nRows_le, ?_⟩
  intro toNum toDate tables df
  refine ⟨?_, rfl, ?_⟩
  · show (tables.foldl (fun acc t =>
        DQS.applyTableRule toNum toDate t acc.1 acc.2)
        (df, ⟨some df.nRows, none, []⟩)).2.total_rows_before = some df.nRows
    rw [DQS.fold_tables_before]
  · show (tables.foldl (fun acc t =>
        DQS.applyTableRule toNum toDate t acc.1 acc.2)
        (df, ⟨some df.nRows, none, []⟩)).1.nRows ≤ df.nRows
    exact DQS.fold_tables_nRows_le toNum toDate tables (df, ⟨some df.nRows, none, []⟩)

/-! ## Claim C1 -/

/-- Claim C1 counterexample (the claim is refuted): a fix run with 10 rows
before and after (row-impact 0 percent, the guardrail passes) and a single
fillna action affecting 10 cells of a 1-column table (cell change 100
percent, above the default 5) aborts on the cell-change guardrail with
fix_report.json NOT on disk: the serialization (run_checks.py line 163)
comes after the cell-change abort (line 162), not before it. -/
theorem C1_cell_abort_leaves_no_report :
    DQS.guardrailStage 2 5 10 10
      [⟨"t_a_null_fill", "t", some "a", "fillna", 10, ""⟩] 1
      = DQS.GuardOutcome.abortCellChanges false := by
  have hcc : DQS.cellChangesOf
      [⟨"t_a_null_fill", "t", some "a", "fillna", 10, ""⟩] = 10 := rfl
  norm_num [DQS.guardrailStage, hcc]

/-- Claim C1 amended (proved): in a fix-mode run with total_rows_before > 0
whose row-impact guardrail passes, the Fix Report is serialized to
fix_report.json only AFTER the cell-change guardrail passes, so every run
aborted by the cell-change guardrail terminates with no fix_report.json on
disk, while a run passing both guardrails has it on disk. -/
theorem C1_report_written_after_cell_guardrail (maxImpact maxCell : ℚ)
    (before after : ℕ) (actions : List DQS.FixAction) (ncols : ℕ) :
    (∀ b, DQS.guardrailStage maxImpact maxCell before after actions ncols
        = DQS.GuardOutcome.abortCellChanges b → b = false)
    ∧ (∀ b, DQS.guardrailStage maxImpact maxCell before after actions ncols
        = DQS.GuardOutcome.finished b → (b = true ↔ 0 < before)) := by
  constructor
  · intro b h
    unfold DQS.guardrailStage at h
    split at h
    · dsimp only at h
      split at h
      · exact absurd h (by simp)
      · split at h
        · injection h with h1
          exact h1.symm
        · exact absurd h (by simp)
    · exact absurd h (by simp)
  · intro b h
    unfold DQS.guardrailStage at h
    split at h
    · rename_i hb
      dsimp only at h
      split at h
      · exact absurd h (by simp)
      · split at h
        · exact absurd h (by simp)
        · injection h with h1
          rw [← h1]
          simp [hb]
    · rename_i hb
      injection h with h1
      rw [← h1]
      simp [hb]

/-- Witness for the amended C1: the flag extraction applied at the concrete
cell-change abort above, and at a run that passes both guardrails. -/
theorem C1_report_written_after_cell_guardrail_witness :
    ((false : Bool) = false)
    ∧ ((true : Bool) = true ↔ 0 < (10 : ℕ)) := by
  constructor
  · refine (C1_report_written_after_cell_guardrail 2 5 10 10
      [⟨"t_a_null_fill", "t", some "a", "fillna", 10, ""⟩] 1).1 false ?_
    have hcc : DQS.cellChangesOf
        [⟨"t_a_null_fill", "t", some "a", "fillna", 10, ""⟩] = 10 := rfl
    norm_num [DQS.guardrailStage, hcc]
  · refine (C1_report_written_after_cell_guardrail 2 5 10 10 [] 1).2 true ?_
    have hcc : DQS.cellChangesOf [] = 0 := rfl
    norm_num [DQS.guardrailStage, hcc]

/-! ## Claim C2 -/

/-- Counting over the zip of a mapped list with its pointwise image reduces
to counting over the original list. -/
theorem countP_zip_self_map {α β : Type} (f : α → β) (h : β → β)
    (p : β × β → Bool) (l : List α) :
    (((l.map f).zip ((l.map f).map h)).map p).countP id
      = l.countP (fun v => p (f v, h (f v))) := by
  induction l with
  | nil => rfl
  | cons a t ih =>
    simp only [List.map_cons, List.zip_cons_cons, List.countP_cons, ih, id]

/-- Claim C2 counterexample (the claim is refuted): under a range check with
min 0 and max 20 on the column [ "abc", 25 ], the cell "abc" fails numeric
coercion, yet after the clip fix it is NOT left unchanged: the whole column
is replaced by the coerced series, so "abc" becomes the missing sentinel
(NaN). -/
theorem C2_clip_replaces_noncoercible_cells :
    DQS.basicToNum (DQS.Value.str "abc") = none
    ∧ (DQS.clip_range DQS.basicToNum
        ⟨[("amount", [DQS.Value.str "abc", DQS.Value.num 25])]⟩ "amount"
        (some 0) (some 20) ⟨none, none, []⟩ "t").1
      = ⟨[("amount", [DQS.Value.missing, DQS.Value.num 20])]⟩
    ∧ DQS.Value.missing ≠ DQS.Value.str "abc" := by
  refine ⟨rfl, rfl, by decide⟩

/-- Claim C2 amended (proved): coercible cells strictly outside a present
bound are the only cells counted in the clip affected total (non-coercible
cells are never counted); when that count is zero the dataset and report are
returned untouched; but when it is positive the WHOLE column is replaced by
the coerced and clipped series, so coercible cells become their clipped
numeric value and non-coercible cells become the missing sentinel rather
than staying unchanged. -/
theorem C2_clip_range_semantics (toNum : DQS.Value → Option ℚ)
    (df : DQS.Dataset) (column : String) (minv maxv : Option ℚ)
    (rep : DQS.FixReport) (tname : String)
    (hcol : df.hasCol column = true) :
    (((df.lookupCol column).countP (fun v => match toNum v with
        | some q => decide (q ≠ DQS.clipQ minv maxv q)
        | none => false) = 0 →
      (DQS.clip_range toNum df column minv maxv rep tname).1 = df
      ∧ (DQS.clip_range toNum df column minv maxv rep tname).2 = rep))
    ∧ (0 < (df.lookupCol column).countP (fun v => match toNum v with
        | some q => decide (q ≠ DQS.clipQ minv maxv q)
        | none => false) →
      (DQS.clip_range toNum df column minv maxv rep tname).1
        = df.setCol column ((df.lookupCol column).map (fun v =>
            match toNum v with
            | some q => DQS.Value.num (DQS.clipQ minv maxv q)
            | none => DQS.Value.missing))
      ∧ (DQS.clip_range toNum df column minv maxv rep tname).2
        = rep.add (tname ++ "_" ++ column ++ "_range") tname (some column)
            "clip"
            ((df.lookupCol column).countP (fun v => match toNum v with
              | some q => decide (q ≠ DQS.clipQ minv maxv q)
              | none => false))
            ("min=" ++ toString minv ++ ", max=" ++ toString maxv)) := by
  have hcell : ∀ v : DQS.Value,
      (DQS.floatNe (toNum v) ((toNum v).map (DQS.clipQ minv maxv))
        && (toNum v).isSome)
      = (match toNum v with
         | some q => decide (q ≠ DQS.clipQ minv maxv q)
         | none => false) := by
    intro v
    cases htv : toNum v <;> simp [DQS.floatNe]
  have hkey : ((((df.lookupCol column).map toNum).zip
      (((df.lookupCol column).map toNum).map
        (fun o => o.map (DQS.clipQ minv maxv)))).map
      (fun bc => DQS.floatNe bc.1 bc.2 && bc.1.isSome)).countP id
    = (df.lookupCol column).countP (fun v => match toNum v with
        | some q => decide (q ≠ DQS.clipQ minv maxv q)
        | none => false) := by
    rw [countP_zip_self_map]
    refine List.countP_congr (fun v _ => ?_)
    show (DQS.floatNe (toNum v) ((toNum v).map (DQS.clipQ minv maxv))
        && (toNum v).isSome) = true
      ↔ (match toNum v with
         | some q => decide (q ≠ DQS.clipQ minv maxv q)
         | none => false) = true
    rw [hcell v]
  have hmap : (((df.lookupCol column).map toNum).map
        (fun o => o.map (DQS.clipQ minv maxv))).map DQS.renderNum
      = (df.lookupCol column).map (fun v =>
          match toNum v with
          | some q => DQS.Value.num (DQS.clipQ minv maxv q)
          | none => DQS.Value.missing) := by
    rw [List.map_map, List.map_map]
    refine List.map_congr_left (fun a _ => ?_)
    simp only [Function.comp]
    cases toNum a <;> rfl
  constructor
  · intro h0
    unfold DQS.clip_range
    rw [if_pos hcol]
    dsimp only
    simp only [hkey]
    rw [if_neg (fun hne => hne h0)]
    exact ⟨rfl, rfl⟩
  · intro hpos
    unfold DQS.clip_range
    rw [if_pos hcol]
    dsimp only
    simp only [hkey]
    rw [if_pos (Nat.pos_iff_ne_zero.mp hpos)]
    exact ⟨by rw [hmap], rfl⟩

/-- Witness for the amended C2: the concrete column [ "abc", 25 ] under min 0
and max 20; one coercible cell is out of bounds, so the column is rewritten
as the coerced and clipped series. -/
theorem C2_clip_range_semantics_witness :
    (DQS.clip_range DQS.basicToNum
        ⟨[("amount", [DQS.Value.str "abc", DQS.Value.num 25])]⟩ "amount"
        (some 0) (some 20) ⟨none, none, []⟩ "t").1
      = DQS.Dataset.setCol
          ⟨[("amount", [DQS.Value.str "abc", DQS.Value.num 25])]⟩ "amount"
          (([DQS.Value.str "abc", DQS.Value.num 25]).map (fun v =>
            match DQS.basicToNum v with
            | some q => DQS.Value.num (DQS.clipQ (some 0) (some 20) q)
            | none => DQS.Value.missing)) := by
  have h := (C2_clip_range_semantics DQS.basicToNum
      ⟨[("amount", [DQS.Value.str "abc", DQS.Value.num 25])]⟩ "amount"
      (some 0) (some 20) ⟨none, none, []⟩ "t" rfl).2 (by decide)
  exact h.1

/-! ## Claim C10 -/

/-- Claim C10 (confirmed): for every object-dtype (textual) column, the
trim_strings fix step replaces the whole column by the stripped string
conversion of each cell; afterwards the column has no missing values, every
previously missing cell holds the literal string nan, and converted missing
cells are not counted in the affected total (stripping does not change the
string nan). -/
theorem C10_trim_strings_object_column (df : DQS.Dataset)
    (rep : DQS.FixReport) (tname : String) (name : String)
    (c : List DQS.Value) (hmem : (name, c) ∈ df.cols)
    (hobj : DQS.isObjectDtype c = true) :
    ((name, c.map DQS.trimCell) ∈ (DQS.trim_strings df rep tname).1.cols)
    ∧ (∀ v : DQS.Value, DQS.trimCell v
        = DQS.Value.str (DQS.pyStrip (DQS.pythonStr v)))
    ∧ (∀ w ∈ c.map DQS.trimCell, w.isna = false)
    ∧ (∀ i : ℕ, c.get? i = some DQS.Value.missing →
        (c.map DQS.trimCell).get? i = some (DQS.Value.str "nan"))
    ∧ DQS.trimChanged DQS.Value.missing = false := by
  refine ⟨?_, fun v => rfl, ?_, ?_, ?_⟩
  · have h1 : (DQS.trim_strings df rep tname).1.cols
        = df.cols.map (fun p =>
          if DQS.isObjectDtype p.2 then (p.1, p.2.map DQS.trimCell) else p) :=
      rfl
    rw [h1]
    refine List.mem_map.mpr ⟨(name, c), hmem, ?_⟩
    simp [hobj]
  · intro w hw
    rcases List.mem_map.mp hw with ⟨v, hv, rfl⟩
    cases v <;> rfl
  · intro i hi
    rw [List.get?_map, hi]
    rfl
  · rfl

/-- Witness for C10: a column with one padded string and one missing cell;
the trimmed column is in the fixed dataset and the missing cell became the
string nan. -/
theorem C10_trim_strings_object_column_witness :
    (("s", [DQS.Value.str "  a ", DQS.Value.missing].map DQS.trimCell)
        ∈ (DQS.trim_strings
            ⟨[("s", [DQS.Value.str "  a ", DQS.Value.missing])]⟩
            ⟨none, none, []⟩ "t").1.cols)
    ∧ ([DQS.Value.str "  a ", DQS.Value.missing].map DQS.trimCell).get? 1
        = some (DQS.Value.str "nan") := by
  have h := C10_trim_strings_object_column
    ⟨[("s", [DQS.Value.str "  a ", DQS.Value.missing])]⟩ ⟨none, none, []⟩ "t"
    "s" [DQS.Value.str "  a ", DQS.Value.missing]
    (List.mem_singleton.mpr rfl) rfl
  exact ⟨h.1, h.2.2.2.1 1 rfl⟩

/-! ## Claim C8 -/

/-- The truthiness-filtered column extraction of the viz builder equals the
claim-side referenced-column list (with multiplicity, in encounter order). -/
theorem vizNullCols_eq_referenced (checks : List DQS.CheckRes) :
    checks.filterMap (fun c =>
        if c.ctype = "null_rate" ∧ c.status = "fail" ∧ DQS.truthyCol c.column
        then c.column else none)
      = DQS.referencedNullCols checks := by
  induction checks with
  | nil => rfl
  | cons a t ih =>
    rw [List.filterMap_cons]
    unfold DQS.referencedNullCols
    rw [List.filter_cons]
    by_cases h1 : a.ctype = "null_rate"
    · by_cases h2 : a.status = "fail"
      · rw [if_pos (show decide (a.ctype = "null_rate" ∧ a.status = "fail")
            = true by simp [h1, h2])]
        rw [List.filterMap_cons]
        cases hc : a.column with
        | none =>
          rw [if_neg (show ¬(a.ctype = "null_rate" ∧ a.status = "fail"
              ∧ DQS.truthyCol none = true) by simp [DQS.truthyCol])]
          exact ih
        | some s =>
          by_cases h3 : s = ""
          · rw [if_neg (show ¬(a.ctype = "null_rate" ∧ a.status = "fail"
                ∧ DQS.truthyCol (some s) = true) by simp [DQS.truthyCol, h3])]
            rw [List.filter_cons,
              if_neg (show ¬(decide (s ≠ "") = true) by simp [h3])]
            exact ih
          · rw [if_pos (show a.ctype = "null_rate" ∧ a.status = "fail"
                ∧ DQS.truthyCol (some s) = true from
                ⟨h1, h2, by simp [DQS.truthyCol, h3]⟩)]
            rw [List.filter_cons,
              if_pos (show decide (s ≠ "") = true by simp [h3])]
            exact congrArg (List.cons s) ih
      · rw [if_neg (show ¬(decide (a.ctype = "null_rate" ∧ a.status = "fail")
            = true) by simp [h2])]
        rw [if_neg (show ¬(a.ctype = "null_rate" ∧ a.status = "fail"
            ∧ DQS.truthyCol a.column = true) from fun hco => h2 hco.2.1)]
        exact ih
    · rw [if_neg (show ¬(decide (a.ctype = "null_rate" ∧ a.status = "fail")
          = true) by simp [h1])]
      rw [if_neg (show ¬(a.ctype = "null_rate" ∧ a.status = "fail"
          ∧ DQS.truthyCol a.column = true) from fun hco => h1 hco.1)]
      exact ih

/-- Under the engine invariant that null_rate checks carry a truthy column,
the referenced-column list is empty exactly when no null_rate check is
failing. -/
theorem referencedNullCols_nil_iff (checks : List DQS.CheckRes)
    (hcols : ∀ c ∈ checks, c.ctype = "null_rate" →
      DQS.truthyCol c.column = true) :
    (DQS.referencedNullCols checks = [] ↔
      ∀ c ∈ checks, ¬(c.ctype = "null_rate" ∧ c.status = "fail")) := by
  induction checks with
  | nil => simp [DQS.referencedNullCols]
  | cons a t ih =>
    have hcolst : ∀ c ∈ t, c.ctype = "null_rate" →
        DQS.truthyCol c.column = true :=
      fun c hc => hcols c (List.mem_cons_of_mem a hc)
    unfold DQS.referencedNullCols
    rw [List.filter_cons]
    by_cases hp : (a.ctype = "null_rate" ∧ a.status = "fail")
    · rw [if_pos (show decide (a.ctype = "null_rate" ∧ a.status = "fail")
        = true by simp [hp.1, hp.2])]
      have htr := hcols a (List.mem_cons_self a t) hp.1
      cases hc : a.column with
      | none =>
        rw [hc] at htr
        simp [DQS.truthyCol] at htr
      | some s =>
        rw [hc] at htr
        have h3 : s ≠ "" := by simpa [DQS.truthyCol] using htr
        rw [List.filterMap_cons]
        rw [show ((⟨a.name, a.table, a.column, a.ctype, a.status, a.count⟩ :
            DQS.CheckRes).column) = a.column from rfl]
        rw [hc]
        rw [List.filter_cons, if_pos (show decide (s ≠ "") = true by simp [h3])]
        constructor
        · intro h
          exact absurd h (List.cons_ne_nil s _)
        · intro hall
          exact absurd hp (hall a (List.mem_cons_self a t))
    · rw [if_neg (show ¬(decide (a.ctype = "null_rate" ∧ a.status = "fail")
        = true) by simpa using hp)]
      constructor
      · intro h c hc
        rcases List.mem_cons.mp hc with rfl | hct
        · exact hp
        · exact (ih hcolst).mp h c hct
      · intro hall
        exact (ih hcolst).mpr (fun c hc => hall c (List.mem_cons_of_mem a hc))

/-- Claim C8 counterexample (the claim is refuted): two failing null_rate
checks on the same column a produce the heatmap cols list [a, a] — the code
does not deduplicate, while the claim requires the DISTINCT referenced
columns. -/
theorem C8_viz_cols_not_distinct :
    DQS.vizCols
      [⟨"t.a.null_rate", "t", some "a", "null_rate", "fail", 1⟩,
       ⟨"t.a.null_rate", "t", some "a", "null_rate", "fail", 2⟩]
      ⟨[("a", [DQS.Value.missing])]⟩ = ["a", "a"]
    ∧ ¬ (["a", "a"] : List String).Nodup := by
  exact ⟨rfl, by decide⟩

/-- Claim C8 amended (proved): when some null_rate check is failing, the
heatmap cols are exactly the columns referenced by the failing null_rate
checks — with multiplicity, in encounter order, NOT deduplicated — filtered
to existing columns and truncated to 14; otherwise they are exactly the
columns of positive missing-fraction over the first 1000 rows, in descending
fraction order (stably sorted), filtered to existing columns and truncated
to 14.  The engine invariant that null_rate checks carry a nonempty column
name is assumed. -/
theorem C8_viz_cols_semantics (checks : List DQS.CheckRes) (ds : DQS.Dataset)
    (hcols : ∀ c ∈ checks, c.ctype = "null_rate" →
      DQS.truthyCol c.column = true) :
    ((∃ c ∈ checks, c.ctype = "null_rate" ∧ c.status = "fail") →
      DQS.vizCols checks ds
        = ((DQS.referencedNullCols checks).filter
            (fun c => ds.hasCol c)).take 14)
    ∧ ((∀ c ∈ checks, ¬(c.ctype = "null_rate" ∧ c.status = "fail")) →
      ∃ sortedPos : List (String × ℚ),
        DQS.vizCols checks ds
          = ((sortedPos.map (fun pr => pr.1)).filter
              (fun c => ds.hasCol c)).take 14
        ∧ sortedPos.Pairwise (fun a b => b.2 ≤ a.2)
        ∧ (∀ pr : String × ℚ, pr ∈ sortedPos ↔
            (pr ∈ ds.cols.map (fun p => (p.1, DQS.colFrac p.2))
              ∧ 0 < pr.2))) := by
  constructor
  · intro hex
    have hne : DQS.referencedNullCols checks ≠ [] := by
      intro h0
      rcases hex with ⟨c, hc, hcc⟩
      exact (referencedNullCols_nil_iff checks hcols).mp h0 c hc hcc
    have hfalse : (DQS.referencedNullCols checks).isEmpty = false := by
      cases hrc : DQS.referencedNullCols checks with
      | nil => exact absurd hrc hne
      | cons x xs => rfl
    unfold DQS.vizCols
    rw [vizNullCols_eq_referenced]
    dsimp only
    rw [if_neg (by simp [hfalse])]
  · intro hall
    have h0 : DQS.referencedNullCols checks = [] :=
      (referencedNullCols_nil_iff checks hcols).mpr hall
    refine ⟨DQS.sortDesc (fun pr : String × ℚ => pr.2)
      ((ds.cols.map (fun p => (p.1, DQS.colFrac p.2))).filter
        (fun pr => 0 < pr.2)), ?_, DQS.sortDesc_pairwise _ _, ?_⟩
    · unfold DQS.vizCols
      rw [vizNullCols_eq_referenced, h0]
      dsimp only
      rw [if_pos (show ([] : List String).isEmpty = true from rfl)]
      rw [DQS.filter_sortDesc]
    · intro pr
      rw [(DQS.sortDesc_perm _ _).mem_iff, List.mem_filter]
      simp

/-- Witness for the amended C8: one failing null_rate check on column a over
a one-column dataset selects exactly [a]. -/
theorem C8_viz_cols_semantics_witness :
    DQS.vizCols [⟨"t.a.null_rate", "t", some "a", "null_rate", "fail", 1⟩]
      ⟨[("a", [DQS.Value.missing])]⟩
      = ((DQS.referencedNullCols
          [⟨"t.a.null_rate", "t", some "a", "null_rate", "fail", 1⟩]).filter
          (fun c => DQS.Dataset.hasCol ⟨[("a", [DQS.Value.missing])]⟩ c)).take 14
    ∧ DQS.vizCols [⟨"t.a.null_rate", "t", some "a", "null_rate", "fail", 1⟩]
        ⟨[("a", [DQS.Value.missing])]⟩ = ["a"] := by
  refine ⟨(C8_viz_cols_semantics
      [⟨"t.a.null_rate", "t", some "a", "null_rate", "fail", 1⟩]
      ⟨[("a", [DQS.Value.missing])]⟩ (by decide)).1 ?_, rfl⟩
  exact ⟨⟨"t.a.null_rate", "t", some "a", "null_rate", "fail", 1⟩,
    List.mem_singleton.mpr rfl, rfl, rfl⟩
